import Mathlib

/-!
Verification of the connection-lifecycle and query-gating core of the
SQL query interface backend (`server.js`).

The server keeps an insertion-ordered map `connections` from connection
identifiers (strings) to connection pools, and exposes HTTP handlers
`connect`, `query`, `schema`, `disconnect`.  We embed the map as an
insertion-ordered association list (mirroring the JavaScript `Map`
semantics: `set` on an existing key updates in place, otherwise appends;
iteration order is insertion order), pools as abstract tokens, and each
handler as a pure function from its request data, the oracle outcomes of
the external calls (connection probe, `pool.query`, `pool.end`) and the
registry state, to a response, a new state, and a trace of the
observable side effects.

String primitives (`trim`, `toLowerCase`, `startsWith`, `includes`) are
embedded structurally over `List Char` so that every definition computes
by kernel reduction; they agree with the JavaScript semantics on the
ASCII texts the gate's keywords are drawn from.
-/

namespace Server

/-- A pooled database connection, abstracted to a token.  The server never
inspects a pool beyond passing it queries and ending it. -/
abbrev Pool := Nat

/-- The `connections` map: insertion-ordered association list from
connection identifier to pool, as a JavaScript `Map`. -/
abbrev Registry := List (String × Pool)

/-- JavaScript `Map.get`: value of the first (and, under the `Map` invariant, only)
entry with the given key. -/
def mapGet (m : Registry) (k : String) : Option Pool :=
  match m with
  | [] => none
  | (k2, v) :: rest => if k2 = k then some v else mapGet rest k

/-- JavaScript `Map.set`: update in place if the key is present (keeping its
insertion position), otherwise append at the end. -/
def mapSet (m : Registry) (k : String) (v : Pool) : Registry :=
  match m with
  | [] => [(k, v)]
  | (k2, v2) :: rest => if k2 = k then (k2, v) :: rest else (k2, v2) :: mapSet rest k v

/-- JavaScript `Map.delete`: remove the entry with the given key. -/
def mapDelete (m : Registry) (k : String) : Registry :=
  m.filter (fun p => p.1 ≠ k)

/-- JavaScript `Map.size`. -/
def mapSize (m : Registry) : Nat := m.length

/-- JavaScript truthiness of an optional string field of a JSON request
body: `undefined`/absent and the empty string are falsy. -/
def truthy : Option String → Bool
  | none => false
  | some s => !s.isEmpty

/-- Observable side effects of a handler run, in order:
pool construction plus liveness probe (`pool.connect(); SELECT NOW()`),
`connections.set`, `pool.end()`, `connections.delete`, `pool.query`. -/
inductive Event where
  | probe (p : Pool)
  | insert (id : String)
  | poolEnd (p : Pool)
  | delete (id : String)
  | exec (p : Pool) (sql : String)
deriving DecidableEq

/-! ## String primitives -/

/-- Predicate `isPre k l`: `k` is an initial segment of `l` (JavaScript
`l.startsWith(k)` on character lists). -/
def isPre : List Char → List Char → Bool
  | [], _ => true
  | _ :: _, [] => false
  | a :: as, b :: bs => a = b && isPre as bs

/-- Predicate `hasSub t k`: `k` occurs as a contiguous substring of `t`
(JavaScript `t.includes(k)`). -/
def hasSub (t k : List Char) : Bool :=
  match t with
  | [] => isPre k []
  | c :: rest => isPre k (c :: rest) || hasSub rest k

/-- JavaScript `String.prototype.trim`: drop whitespace at both ends. -/
def trimChars (l : List Char) : List Char :=
  ((l.dropWhile Char.isWhitespace).reverse.dropWhile Char.isWhitespace).reverse

/-- JavaScript `String.prototype.toLowerCase` (ASCII range, which covers the gate's
keywords). -/
def lowerChars (l : List Char) : List Char := l.map Char.toLower

/-! ## Query gate (`POST /api/query`, security check) -/

/-- The `dangerousKeywords` blocklist, in source order. -/
def dangerousKeywords : List (List Char) :=
  ["drop".data, "delete".data, "truncate".data, "alter".data,
   "create".data, "insert".data, "update".data]

/-- The normalized text `query.trim().toLowerCase()`, the text the gate classifies. -/
def normalize (q : String) : List Char := lowerChars (trimChars q.data)

inductive GateResult where
  | allowed
  | rejected
deriving DecidableEq

/-- The gate of the query handler: if the normalized text does not start
with `select` or `with`, reject exactly when some blocklisted keyword
occurs as a substring; otherwise fall through to execution. -/
def classify (q : String) : GateResult :=
  let t := normalize q
  if !(isPre "select".data t) && !(isPre "with".data t) then
    if dangerousKeywords.any (fun k => hasSub t k) then .rejected else .allowed
  else .allowed

example : classify "SELECT * FROM t; -- drop table x" = .allowed := by decide
example : classify "  UPDATE users SET x=1" = .rejected := by decide
example : classify "explain select 1" = .allowed := by decide
example : classify "show tables" = .allowed := by decide
example : classify "  DROP TABLE foo" = .rejected := by decide
example : mapGet (mapSet [] "7" 1) "7" = some 1 := by decide

/-! ## `POST /api/connect` -/

/-- The JSON body of a connect request; a missing field is `none`. -/
structure ConnectReq where
  host : Option String
  database : Option String
  username : Option String
  password : Option String
deriving DecidableEq

inductive ConnectRes where
  /-- Status 400, `"Missing required connection parameters"`. -/
  | validationError
  /-- Status 500, `"Failed to connect to database"` (probe threw). -/
  | connectError
  /-- Status 200, with the returned `connectionId`. -/
  | ok (connectionId : String)
deriving DecidableEq

/-- The validation of the connect handler:
`!(!host || !database || !username || !password)`. -/
def paramsPresent (req : ConnectReq) : Bool :=
  truthy req.host && truthy req.database && truthy req.username
    && truthy req.password

/-- The connect handler.  `now` is the value `Date.now()` returns during
this request; `probeOk` tells whether `pool.connect()` plus
`SELECT NOW()` succeeds; `newPool` is the pool the `new Pool(...)` call
constructs.  Returns the response, the registry after the request, and
the trace of external effects. -/
def connect (req : ConnectReq) (now : Nat) (probeOk : Bool) (newPool : Pool)
    (st : Registry) : ConnectRes × Registry × List Event :=
  if !paramsPresent req then
    (.validationError, st, [])
  else if !probeOk then
    (.connectError, st, [.probe newPool])
  else
    let connectionId := Nat.repr now
    let st1 := mapSet st connectionId newPool
    if 100 < mapSize st1 then
      match st1 with
      | [] => (.ok connectionId, st1, [.probe newPool, .insert connectionId])
      | (oldKey, oldPool) :: _ =>
          (.ok connectionId, mapDelete st1 oldKey,
           [.probe newPool, .insert connectionId, .poolEnd oldPool, .delete oldKey])
    else
      (.ok connectionId, st1, [.probe newPool, .insert connectionId])

/-! ## `POST /api/query` -/

/-- A run-time error reported by `pool.query` (a PostgreSQL error):
message, SQLSTATE code when present, character position when present. -/
structure DbError where
  message : String
  code : Option String
  position : Option Nat
deriving DecidableEq

/-- A successful `pool.query` result, abstracted to its row count (row
contents and field metadata play no role in the claims). -/
structure DbResult where
  rowCount : Nat
deriving DecidableEq

/-- The outcome `pool.query(sql)` would have for each pool and SQL text:
the behavior of the external database during this request. -/
def DbOracle := Pool → String → Except DbError DbResult

inductive QueryRes where
  /-- Status 400, `"Missing connectionId or query"`. -/
  | missingParams
  /-- Status 400, `"Invalid connection ID or connection expired"`. -/
  | invalidConnection
  /-- Status 403, `"Only SELECT queries are allowed for security reasons"`. -/
  | forbidden
  /-- Status 200; `sql` is the echoed `query.sql` field of the response. -/
  | success (sql : String) (rowCount : Nat)
  /-- Status 400; the fields of the JSON error body:
  `error`, `errorCode`, `position`, `query`. -/
  | dbError (errorMessage : String) (errorCode : Option String)
      (position : Option Nat) (sql : String)
deriving DecidableEq

/-- The `catch` block of the query handler: remap known PostgreSQL error
codes to a human-readable message, pass anything else through raw. -/
def mapErrorMessage (e : DbError) : String :=
  match e.code with
  | some c =>
      if c = "42P01" then "Table or relation does not exist: " ++ e.message
      else if c = "42703" then "Column does not exist: " ++ e.message
      else if c = "42601" then "Syntax error in SQL query: " ++ e.message
      else if c = "42804" then "Data type mismatch: " ++ e.message
      else e.message
  | none => e.message

/-- The query handler.  Returns the response and the trace of external
effects (the registry is not mutated by this handler). -/
def query (connectionId : Option String) (q : Option String) (db : DbOracle)
    (st : Registry) : QueryRes × List Event :=
  if !(truthy connectionId && truthy q) then
    (.missingParams, [])
  else
    let cid := connectionId.getD ""
    let qs := q.getD ""
    match mapGet st cid with
    | none => (.invalidConnection, [])
    | some pool =>
        match classify qs with
        | .rejected => (.forbidden, [])
        | .allowed =>
            match db pool qs with
            | .ok r => (.success qs r.rowCount, [.exec pool qs])
            | .error e =>
                (.dbError (mapErrorMessage e) e.code e.position qs,
                 [.exec pool qs])

/-! ## `POST /api/disconnect` -/

inductive DisconnectRes where
  /-- Status 200, `"Disconnected successfully"`. -/
  | success
  /-- Status 500, `"Error during disconnect"` (`pool.end()` threw). -/
  | closeError
deriving DecidableEq

/-- The disconnect handler.  `closeOk` tells whether `pool.end()`
succeeds when it is reached. -/
def disconnect (connectionId : String) (closeOk : Bool) (st : Registry) :
    DisconnectRes × Registry × List Event :=
  match mapGet st connectionId with
  | none => (.success, st, [])
  | some pool =>
      if closeOk then
        (.success, mapDelete st connectionId, [.poolEnd pool, .delete connectionId])
      else
        (.closeError, st, [.poolEnd pool])

/-! ## Concrete test data -/

/-- A connect request with all four parameters present. -/
def goodReq : ConnectReq :=
  ⟨some "db.example.com", some "shop", some "alice", some "secret"⟩

/-- Ninety-nine registry entries with keys `"1"` … `"99"`. -/
def rest99 : Registry := (List.range 99).map (fun i => (Nat.repr (i + 1), i + 1))

/-- A full registry of 100 entries, oldest entry `("0", 0)` first. -/
def registry100 : Registry := ("0", 0) :: rest99

/-- The SQL text a query response echoes back (`query.sql` of a success
body, `query` of an error body). -/
def resSql : QueryRes → Option String
  | .success sql _ => some sql
  | .dbError _ _ _ sql => some sql
  | _ => none

/-! ## Supporting lemmas: the registry map -/

theorem mapGet_mapSet_self (m : Registry) (k : String) (v : Pool) :
    mapGet (mapSet m k v) k = some v := by
  induction m with
  | nil => simp [mapSet, mapGet]
  | cons hd tl ih =>
      obtain ⟨k2, v2⟩ := hd
      by_cases h : k2 = k <;> simp [mapSet, mapGet, h, ih]

theorem mapSet_of_get_none (m : Registry) (k : String) (v : Pool)
    (h : mapGet m k = none) : mapSet m k v = m ++ [(k, v)] := by
  induction m with
  | nil => simp [mapSet]
  | cons hd tl ih =>
      obtain ⟨k2, v2⟩ := hd
      by_cases hk : k2 = k
      · simp [mapGet, hk] at h
      · simp only [mapGet, if_neg hk] at h
        simp [mapSet, hk, ih h]

theorem length_mapSet_of_get_some (m : Registry) (k : String) (v w : Pool)
    (h : mapGet m k = some w) : (mapSet m k v).length = m.length := by
  induction m with
  | nil => simp [mapGet] at h
  | cons hd tl ih =>
      obtain ⟨k2, v2⟩ := hd
      by_cases hk : k2 = k
      · simp [mapSet, hk]
      · simp only [mapGet, if_neg hk] at h
        simp [mapSet, hk, ih h]

theorem mapGet_mapDelete_of_ne (m : Registry) (k k0 : String) (h : k ≠ k0) :
    mapGet (mapDelete m k0) k = mapGet m k := by
  induction m with
  | nil => rfl
  | cons hd tl ih =>
      obtain ⟨k2, v2⟩ := hd
      by_cases hk : k2 = k0
      · subst hk
        have hne : k2 ≠ k := fun hkk => h hkk.symm
        simp [mapDelete, List.filter_cons, mapGet, hne] at ih ⊢
        exact ih
      · simp [mapDelete, List.filter_cons, hk, mapGet] at ih ⊢
        by_cases hk2 : k2 = k <;> simp [hk2, ih]

theorem mapDelete_cons_self (m : Registry) (k : String) (v : Pool) :
    mapDelete ((k, v) :: m) k = mapDelete m k := by
  simp [mapDelete, List.filter_cons]

theorem mapDelete_of_not_mem (m : Registry) (k : String)
    (h : ∀ x ∈ m, x.1 ≠ k) : mapDelete m k = m := by
  unfold mapDelete
  exact List.filter_eq_self.mpr (fun a ha => by simpa using h a ha)

theorem mapGet_mapDelete_self (m : Registry) (k : String) :
    mapGet (mapDelete m k) k = none := by
  induction m with
  | nil => rfl
  | cons hd tl ih =>
      obtain ⟨k2, v2⟩ := hd
      by_cases hk : k2 = k
      · simp [mapDelete, List.filter_cons, hk] at ih ⊢
        exact ih
      · simp [mapDelete, List.filter_cons, hk, mapGet] at ih ⊢
        exact ih

/-! ## Supporting lemmas: string primitives -/

theorem isPre_iff (k l : List Char) : isPre k l = true ↔ k <+: l := by
  induction k generalizing l with
  | nil => simp [isPre]
  | cons a as ih =>
      cases l with
      | nil => simp [isPre]
      | cons b bs => simp [isPre, List.cons_prefix_cons, ih, and_comm]

theorem hasSub_iff (t k : List Char) : hasSub t k = true ↔ k <:+: t := by
  induction t with
  | nil =>
      simp only [hasSub, isPre_iff, List.infix_iff_prefix_suffix]
      constructor
      · intro h; exact ⟨[], h, List.suffix_rfl⟩
      · rintro ⟨tl, h, hs⟩
        have := List.suffix_nil.mp hs
        subst this
        exact h
  | cons c rest ih =>
      simp [hasSub, isPre_iff, ih, List.infix_cons_iff]

/-- Reduction of the query handler once its parameter and lookup checks
have passed: everything else depends only on the gate and the database
outcome. -/
theorem query_after_checks (cid qs : String) (db : DbOracle) (st : Registry)
    (pool : Pool) (hcid : truthy (some cid) = true)
    (hq : truthy (some qs) = true) (hget : mapGet st cid = some pool) :
    query (some cid) (some qs) db st =
      match classify qs with
      | .rejected => (.forbidden, [])
      | .allowed =>
          match db pool qs with
          | .ok r => (.success qs r.rowCount, [.exec pool qs])
          | .error e =>
              (.dbError (mapErrorMessage e) e.code e.position qs,
               [.exec pool qs]) := by
  unfold query
  rw [hcid, hq]
  simp only [Bool.and_self, Bool.not_true, Bool.false_eq_true, if_false,
    Option.getD_some]
  rw [hget]

/-! ## Claims -/

/-- C1.  Query Gate prefix-allow: any SQL text whose normalization
(trim, case-fold) starts with `select` or `with` is classified ALLOWED,
regardless of later content, and the query handler (given present
parameters and a resolving connection id) proceeds to execute it against
the pool. -/
theorem gate_prefix_allow (q : String)
    (h : isPre "select".data (normalize q) = true ∨
         isPre "with".data (normalize q) = true) :
    classify q = .allowed ∧
    ∀ (cid : String) (pool : Pool) (db : DbOracle) (st : Registry),
      truthy (some cid) = true → truthy (some q) = true →
      mapGet st cid = some pool →
      (query (some cid) (some q) db st).2 = [.exec pool q] := by
  have hc : classify q = .allowed := by
    unfold classify
    rcases h with h | h <;> simp [h]
  refine ⟨hc, ?_⟩
  intro cid pool db st hcid hq hget
  rw [query_after_checks cid q db st pool hcid hq hget, hc]
  cases db pool q <;> rfl

/-- Witness for C1, at the spec's own example: the prefix is `SELECT`
and a blocklisted keyword occurs later in the string. -/
theorem gate_prefix_allow_witness :
    classify "SELECT * FROM t; -- drop table x" = .allowed ∧
    (query (some "c1") (some "SELECT * FROM t; -- drop table x")
        (fun _ _ => .ok ⟨1⟩) [("c1", 5)]).2 =
      [.exec 5 "SELECT * FROM t; -- drop table x"] := by
  have h := gate_prefix_allow "SELECT * FROM t; -- drop table x"
    (Or.inl (by decide))
  exact ⟨h.1, h.2 "c1" 5 (fun _ _ => .ok ⟨1⟩) [("c1", 5)]
    (by decide) (by decide) (by decide)⟩

/-- C2.  Query Gate blocklist: a SQL text whose normalization does not
start with `select` or `with` is rejected (the handler answers with the
403 response) exactly when one of the seven blocklisted keywords occurs
as a substring of the normalized text; when none occurs it is allowed
and executed. -/
theorem gate_blocklist (q : String)
    (h1 : isPre "select".data (normalize q) = false)
    (h2 : isPre "with".data (normalize q) = false) :
    (classify q = .rejected ↔ ∃ k ∈ dangerousKeywords, k <:+: normalize q) ∧
    ∀ (cid : String) (db : DbOracle) (st : Registry) (pool : Pool),
      truthy (some cid) = true → truthy (some q) = true →
      mapGet st cid = some pool →
      ((∃ k ∈ dangerousKeywords, k <:+: normalize q) →
          query (some cid) (some q) db st = (.forbidden, [])) ∧
      ((∀ k ∈ dangerousKeywords, ¬ k <:+: normalize q) →
          (query (some cid) (some q) db st).2 = [.exec pool q]) := by
  have key : dangerousKeywords.any (fun k => hasSub (normalize q) k) = true ↔
      ∃ k ∈ dangerousKeywords, k <:+: normalize q := by
    simp [List.any_eq_true, hasSub_iff]
  have hcl : classify q =
      if dangerousKeywords.any (fun k => hasSub (normalize q) k) then
        GateResult.rejected
      else GateResult.allowed := by
    unfold classify
    simp [h1, h2]
  have hiff : classify q = .rejected ↔
      ∃ k ∈ dangerousKeywords, k <:+: normalize q := by
    rw [hcl, ← key]
    cases hany : dangerousKeywords.any (fun k => hasSub (normalize q) k) <;>
      simp [hany]
  refine ⟨hiff, ?_⟩
  intro cid db st pool hcid hq hget
  constructor
  · intro hex
    rw [query_after_checks cid q db st pool hcid hq hget, hiff.mpr hex]
  · intro hnone
    have hallow : classify q = .allowed := by
      have hany : dangerousKeywords.any (fun k => hasSub (normalize q) k)
          = false := by
        by_contra hc
        rw [Bool.not_eq_false] at hc
        obtain ⟨k, hk, hsub⟩ := List.any_eq_true.mp hc
        exact hnone k hk ((hasSub_iff _ _).mp hsub)
      rw [hcl, hany]
      rfl
    rw [query_after_checks cid q db st pool hcid hq hget, hallow]
    cases db pool q <;> rfl

/-- Witness for C2, at the spec's own examples: `"  UPDATE users SET
x=1"` is rejected with the 403 response, `"explain select 1"` contains
no blocklisted keyword and is allowed. -/
theorem gate_blocklist_witness :
    query (some "c1") (some "  UPDATE users SET x=1")
        (fun _ _ => .ok ⟨1⟩) [("c1", 5)] = (.forbidden, []) ∧
    classify "explain select 1" = .allowed := by
  have h := gate_blocklist "  UPDATE users SET x=1" (by decide) (by decide)
  refine ⟨(h.2 "c1" (fun _ _ => .ok ⟨1⟩) [("c1", 5)] 5
    (by decide) (by decide) (by decide)).1 ?_, by decide⟩
  exact ⟨"update".data, by decide, (hasSub_iff _ _).mp (by decide)⟩

/-- C5.  Connect validation: a connect request missing any of host,
database, username, password is answered with the 400 validation error,
no connection attempt is made (empty effect trace), and the registry is
unchanged. -/
theorem connect_validation (req : ConnectReq) (now : Nat) (probeOk : Bool)
    (p : Pool) (st : Registry)
    (h : req.host = none ∨ req.database = none ∨ req.username = none ∨
         req.password = none) :
    connect req now probeOk p st = (.validationError, st, []) := by
  have hp : paramsPresent req = false := by
    rcases h with h | h | h | h <;> simp [paramsPresent, truthy, h]
  unfold connect
  rw [hp]
  rfl

/-- Witness for C5: a request missing `host`. -/
theorem connect_validation_witness :
    connect ⟨none, some "shop", some "alice", some "secret"⟩ 5 true 9
        [("a", 1)] = (.validationError, [("a", 1)], []) :=
  connect_validation _ 5 true 9 _ (Or.inl rfl)

/-- The absent case of the disconnect handler. -/
theorem disconnect_absent (st : Registry) (id : String) (closeOk : Bool)
    (h : mapGet st id = none) : disconnect id closeOk st = (.success, st, []) := by
  unfold disconnect
  rw [h]

/-- C6.  Disconnect idempotence: disconnecting an absent identifier
succeeds with no error, no effects and an unchanged registry; hence a
second disconnect of the same identifier (the first close having
succeeded) returns success and leaves the state of the first disconnect
untouched. -/
theorem disconnect_idempotent (st : Registry) (id : String) (closeOk : Bool) :
    (mapGet st id = none → disconnect id closeOk st = (.success, st, [])) ∧
    disconnect id true (disconnect id true st).2.1 =
      (.success, (disconnect id true st).2.1, []) := by
  refine ⟨disconnect_absent st id closeOk, ?_⟩
  have h1 : mapGet (disconnect id true st).2.1 id = none := by
    cases hg : mapGet st id with
    | none => simp [disconnect, hg]
    | some pool => simp [disconnect, hg, mapGet_mapDelete_self]
  exact disconnect_absent _ id true h1

/-- Witness for C6: disconnecting a never-existing identifier, and
disconnecting the same identifier twice. -/
theorem disconnect_idempotent_witness :
    mapGet [("a", 3)] "b" = none ∧
    disconnect "b" true [("a", 3)] = (.success, [("a", 3)], []) ∧
    disconnect "a" true (disconnect "a" true [("a", 3)]).2.1 =
      (.success, (disconnect "a" true [("a", 3)]).2.1, []) :=
  ⟨by decide, (disconnect_idempotent [("a", 3)] "b" true).1 (by decide),
    (disconnect_idempotent [("a", 3)] "a" true).2⟩

/-- C7.  Query preconditions: a missing/empty query text or a missing
connection id is answered with the 400 missing-parameters response, and
a present but unresolvable connection id with the 400
invalid-connection response; in both cases nothing is executed (empty
effect trace), and the handler is a total function (it cannot throw). -/
theorem query_preconditions (cid q : Option String) (db : DbOracle)
    (st : Registry) :
    ((truthy cid = false ∨ truthy q = false) →
        query cid q db st = (.missingParams, [])) ∧
    (∀ s, cid = some s → truthy cid = true → truthy q = true →
        mapGet st s = none → query cid q db st = (.invalidConnection, [])) := by
  constructor
  · intro h
    unfold query
    rcases h with h | h <;> rw [h] <;> simp
  · intro s hs hcid hq hget
    subst hs
    unfold query
    rw [hcid, hq]
    simp only [Bool.and_self, Bool.not_true, Bool.false_eq_true, if_false,
      Option.getD_some]
    rw [hget]

/-- Witness for C7: a request with no connection id, and a request whose
connection id resolves to nothing. -/
theorem query_preconditions_witness :
    query none (some "select 1") (fun _ _ => .ok ⟨1⟩) [("c1", 5)] =
      (.missingParams, []) ∧
    query (some "zzz") (some "select 1") (fun _ _ => .ok ⟨1⟩) [("c1", 5)] =
      (.invalidConnection, []) :=
  ⟨(query_preconditions none (some "select 1") _ _).1 (Or.inl rfl),
    (query_preconditions (some "zzz") (some "select 1") _ _).2 "zzz" rfl
      (by decide) (by decide) (by decide)⟩

/-- C8.  Query execution error remapping: when the database rejects the
query, the 400 error body carries the remapped message for the four
known PostgreSQL codes and the raw database message for any other code
(or no code), together with the original query text and the reported
error position. -/
theorem query_error_mapping (cid qs : String) (db : DbOracle) (st : Registry)
    (pool : Pool) (e : DbError) (hcid : truthy (some cid) = true)
    (hq : truthy (some qs) = true) (hget : mapGet st cid = some pool)
    (hgate : classify qs = .allowed) (hdb : db pool qs = .error e) :
    query (some cid) (some qs) db st =
      (.dbError (mapErrorMessage e) e.code e.position qs, [.exec pool qs]) ∧
    (e.code = some "42P01" →
        mapErrorMessage e = "Table or relation does not exist: " ++ e.message) ∧
    (e.code = some "42703" →
        mapErrorMessage e = "Column does not exist: " ++ e.message) ∧
    (e.code = some "42601" →
        mapErrorMessage e = "Syntax error in SQL query: " ++ e.message) ∧
    (e.code = some "42804" →
        mapErrorMessage e = "Data type mismatch: " ++ e.message) ∧
    (∀ c, e.code = some c →
        c ∉ (["42P01", "42703", "42601", "42804"] : List String) →
        mapErrorMessage e = e.message) ∧
    (e.code = none → mapErrorMessage e = e.message) := by
  refine ⟨?_, ?_, ?_, ?_, ?_, ?_, ?_⟩
  · rw [query_after_checks cid qs db st pool hcid hq hget, hgate, hdb]
  · intro h; simp [mapErrorMessage, h]
  · intro h; simp [mapErrorMessage, h]
  · intro h; simp [mapErrorMessage, h]
  · intro h; simp [mapErrorMessage, h]
  · intro c hc hmem
    simp only [List.mem_cons, not_or] at hmem
    obtain ⟨n1, n2, n3, n4, -⟩ := hmem
    simp [mapErrorMessage, hc, n1, n2, n3, n4]
  · intro h; simp [mapErrorMessage, h]

/-- Witness for C8: a syntax error (code 42601) at position 12 against
the query `"select ("`. -/
theorem query_error_mapping_witness :
    query (some "c1") (some "select (")
        (fun _ _ => .error ⟨"boom", some "42601", some 12⟩) [("c1", 5)] =
      (.dbError (mapErrorMessage ⟨"boom", some "42601", some 12⟩)
        (some "42601") (some 12) "select (", [.exec 5 "select ("]) ∧
    mapErrorMessage ⟨"boom", some "42601", some 12⟩ =
      "Syntax error in SQL query: boom" := by
  have h := query_error_mapping "c1" "select ("
    (fun _ _ => .error ⟨"boom", some "42601", some 12⟩) [("c1", 5)] 5
    ⟨"boom", some "42601", some 12⟩ (by decide) (by decide) (by decide)
    (by decide) rfl
  exact ⟨h.1, h.2.2.2.1 rfl⟩

/-- C9.  Normalization is comparison-only: when the gate allows a query,
the text executed against the pool and the text echoed back in the
response are the submitted string itself, not its trimmed and
case-folded form. -/
theorem query_executes_original (cid qs : String) (db : DbOracle)
    (st : Registry) (pool : Pool) (hcid : truthy (some cid) = true)
    (hq : truthy (some qs) = true) (hget : mapGet st cid = some pool)
    (hgate : classify qs = .allowed) :
    (query (some cid) (some qs) db st).2 = [.exec pool qs] ∧
    resSql (query (some cid) (some qs) db st).1 = some qs := by
  rw [query_after_checks cid qs db st pool hcid hq hget, hgate]
  cases db pool qs <;> exact ⟨rfl, rfl⟩

/-- Witness for C9: `"  SELECT 1  "` is executed and echoed with its
surrounding whitespace and upper case intact. -/
theorem query_executes_original_witness :
    (query (some "c1") (some "  SELECT 1  ") (fun _ _ => .ok ⟨1⟩)
        [("c1", 5)]).2 = [.exec 5 "  SELECT 1  "] ∧
    resSql (query (some "c1") (some "  SELECT 1  ") (fun _ _ => .ok ⟨1⟩)
        [("c1", 5)]).1 = some "  SELECT 1  " :=
  query_executes_original "c1" "  SELECT 1  " _ _ 5 (by decide) (by decide)
    (by decide) (by decide)

/-- C10.  Disconnect is not removal-first: when `pool.end()` fails, the
handler answers with the 500 error, the registry entry is not deleted,
and the identifier still resolves to its pool. -/
theorem disconnect_close_failure (st : Registry) (id : String) (pool : Pool)
    (h : mapGet st id = some pool) :
    disconnect id false st = (.closeError, st, [.poolEnd pool]) ∧
    mapGet (disconnect id false st).2.1 id = some pool := by
  have h1 : disconnect id false st = (.closeError, st, [.poolEnd pool]) := by
    unfold disconnect
    rw [h]
    rfl
  exact ⟨h1, by rw [h1]; exact h⟩

/-- Witness for C10: the close of `"a"`'s pool fails; the entry
survives. -/
theorem disconnect_close_failure_witness :
    disconnect "a" false [("a", 3)] = (.closeError, [("a", 3)], [.poolEnd 3]) ∧
    mapGet (disconnect "a" false [("a", 3)]).2.1 "a" = some 3 :=
  disconnect_close_failure [("a", 3)] "a" 3 (by decide)

/-- C3.  Identifier generation is `Date.now().toString()`: two
successful connect calls that observe the same millisecond timestamp
(here 7) both return the identifier `"7"`, and the second call's pool
overwrites the first call's registry entry — refuting uniqueness of
identifiers within a process lifetime. -/
theorem connect_duplicate_id :
    (connect goodReq 7 true 1 []).1 = .ok "7" ∧
    (connect goodReq 7 true 2 (connect goodReq 7 true 1 []).2.1).1 = .ok "7" ∧
    mapGet (connect goodReq 7 true 2 (connect goodReq 7 true 1 []).2.1).2.1 "7"
      = some 2 := by
  decide

/-- Reduction of the connect handler once validation and the liveness
probe have passed. -/
theorem connect_success_unfold (req : ConnectReq) (now : Nat) (p : Pool)
    (st : Registry) (hreq : paramsPresent req = true) :
    connect req now true p st =
      (if 100 < mapSize (mapSet st (Nat.repr now) p) then
         match mapSet st (Nat.repr now) p with
         | [] => (.ok (Nat.repr now), mapSet st (Nat.repr now) p,
             [.probe p, .insert (Nat.repr now)])
         | (oldKey, oldPool) :: _ =>
             (.ok (Nat.repr now), mapDelete (mapSet st (Nat.repr now) p) oldKey,
              [.probe p, .insert (Nat.repr now), .poolEnd oldPool,
               .delete oldKey])
       else (.ok (Nat.repr now), mapSet st (Nat.repr now) p,
         [.probe p, .insert (Nat.repr now)])) := by
  unfold connect
  rw [hreq]
  rfl

/-- C4 (amended).  Eviction on the 101st entry: a successful connect
against a full registry of 100 entries (with distinct keys and a fresh
timestamp) first inserts the new entry and then closes and removes
exactly the oldest-inserted entry `(k0, p0)`; the resulting registry
keeps the other 99 entries in order, ends with the new entry, and holds
100 entries again.  The effect trace records the insertion *before* the
close and removal. -/
theorem connect_eviction (req : ConnectReq) (now : Nat) (p p0 : Pool)
    (k0 : String) (rest : Registry)
    (hreq : paramsPresent req = true)
    (hsize : mapSize ((k0, p0) :: rest) = 100)
    (hnodup : (((k0, p0) :: rest).map Prod.fst).Nodup)
    (hfresh : mapGet ((k0, p0) :: rest) (Nat.repr now) = none) :
    connect req now true p ((k0, p0) :: rest) =
      (.ok (Nat.repr now), rest ++ [(Nat.repr now, p)],
       [.probe p, .insert (Nat.repr now), .poolEnd p0, .delete k0]) ∧
    mapSize (rest ++ [(Nat.repr now, p)]) = 100 := by
  have hlen : rest.length = 99 := by
    simpa [mapSize] using hsize
  have hk0 : ¬ k0 = Nat.repr now := by
    intro hk
    simp only [mapGet, if_pos hk] at hfresh
    exact Option.noConfusion hfresh
  have hset : mapSet ((k0, p0) :: rest) (Nat.repr now) p =
      (k0, p0) :: (rest ++ [(Nat.repr now, p)]) := by
    rw [mapSet_of_get_none _ _ _ hfresh]
    rfl
  have hmem : ∀ x ∈ rest, x.1 ≠ k0 := by
    intro x hx he
    simp only [List.map_cons, List.nodup_cons] at hnodup
    exact hnodup.1 (he ▸ List.mem_map_of_mem Prod.fst hx)
  have hfilter : mapDelete ((k0, p0) :: (rest ++ [(Nat.repr now, p)])) k0 =
      rest ++ [(Nat.repr now, p)] := by
    rw [mapDelete_cons_self, mapDelete_of_not_mem]
    intro x hx
    rcases List.mem_append.mp hx with hx | hx
    · exact hmem x hx
    · rcases List.mem_singleton.mp hx with rfl
      exact fun he => hk0 he.symm
  have hsz : mapSize ((k0, p0) :: (rest ++ [(Nat.repr now, p)])) = 101 := by
    simp [mapSize, hlen]
  have hmain := connect_success_unfold req now p ((k0, p0) :: rest) hreq
  rw [hset, hsz, if_pos (by omega : (100 : Nat) < 101)] at hmain
  refine ⟨hmain.trans ?_, by simp [mapSize, hlen]⟩
  show (ConnectRes.ok (Nat.repr now),
    mapDelete ((k0, p0) :: (rest ++ [(Nat.repr now, p)])) k0,
    [Event.probe p, Event.insert (Nat.repr now), Event.poolEnd p0,
     Event.delete k0]) =
    (ConnectRes.ok (Nat.repr now), rest ++ [(Nat.repr now, p)],
     [Event.probe p, Event.insert (Nat.repr now), Event.poolEnd p0,
      Event.delete k0])
  rw [hfilter]

/-- Witness for C4 (amended): a full registry with keys `"0"` … `"99"`;
connecting at timestamp 101 evicts exactly `("0", 0)`. -/
theorem connect_eviction_witness :
    connect goodReq 101 true 555 (("0", 0) :: rest99) =
      (.ok "101", rest99 ++ [("101", 555)],
       [.probe 555, .insert "101", .poolEnd 0, .delete "0"]) ∧
    mapSize (rest99 ++ [("101", 555)]) = 100 :=
  connect_eviction goodReq 101 555 0 "0" rest99 (by decide) (by decide)
    (by decide) (by decide)

/-- C4 counterexample to the claimed ordering: at a concrete full
registry, the effect trace of the evicting connect is
`[probe, insert "101", poolEnd 0, delete "0"]` — the insertion of the
new entry (position 1) happens strictly before the close (position 2)
and removal (position 3) of the oldest entry, refuting the claim that
the eviction happens before the new entry is inserted. -/
theorem connect_eviction_order_cex :
    (connect goodReq 101 true 555 registry100).2.2 =
      [.probe 555, .insert "101", .poolEnd 0, .delete "0"] ∧
    (connect goodReq 101 true 555 registry100).2.2.indexOf
        (Event.insert "101") <
      (connect goodReq 101 true 555 registry100).2.2.indexOf
        (Event.poolEnd 0) := by
  decide

end Server
